import Mathlib

/-!
Shallow embedding of pdf-image-extractor/extract.py.

The program extracts embedded images from a PDF (filtered by a minimum
width and height), saves them as page{N}_img{M}.png, and optionally
uploads them to a remote folder, skipping files whose basename already
appears in a listing of the folder fetched once at the start.

External collaborators (the PDF library and the storage SDK) are modelled
as data: a document is a list of pages, each page a list of decoded
images; the remote listing is a list of names passed in as the snapshot
that list_folder returns.
-/

/-- Decoded pixmap: width, height, channel count n and alpha flag,
mirroring the fields of fitz.Pixmap the code reads. -/
structure Image where
  width : Nat
  height : Nat
  n : Nat
  alpha : Nat
deriving DecidableEq

/-- One file written by the extractor: the path passed to pix.save and
the pixmap (after any color conversion) that was saved there. -/
structure Saved where
  path : String
  img : Image
deriving DecidableEq

/-- Color conversion of lines 59-60: if n - alpha > 3 (CMYK or similar)
the pixmap is converted to RGB; width and height are unchanged. -/
def toRGB (img : Image) : Image :=
  if 3 < (img.n : Int) - (img.alpha : Int) then
    { img with n := 3 + img.alpha }
  else img

/-- Output path of line 62: os.path.join(output_dir, f"page{page_num + 1}_img{img_idx + 1}.png"). -/
def imgName (outputDir : String) (pageNum imgIdx : Nat) : String :=
  outputDir ++ "/page" ++ toString (pageNum + 1) ++ "_img" ++ toString (imgIdx + 1) ++ ".png"

/-- Inner loop of extract_images (lines 47-65): walk the images of one
page, breaking when the limit is truthy and already met, skipping images
under min_size in either dimension, otherwise saving. -/
def extractPage (outputDir : String) (minSize limit : Int) (pageNum : Nat)
    (imgIdx : Nat) (imgs : List Image) (extracted : List Saved) : List Saved :=
  match imgs with
  | [] => extracted
  | img :: rest =>
    if limit ≠ 0 ∧ limit ≤ (extracted.length : Int) then
      extracted
    else if (img.width : Int) < minSize ∨ (img.height : Int) < minSize then
      extractPage outputDir minSize limit pageNum (imgIdx + 1) rest extracted
    else
      extractPage outputDir minSize limit pageNum (imgIdx + 1) rest
        (extracted ++ [⟨imgName outputDir pageNum imgIdx, toRGB img⟩])

/-- Outer loop of extract_images (lines 40-65): walk the pages, breaking
at page entry when the limit is truthy and already met. -/
def extractPages (outputDir : String) (minSize limit : Int)
    (pageNum : Nat) (pages : List (List Image)) (extracted : List Saved) : List Saved :=
  match pages with
  | [] => extracted
  | page :: rest =>
    if limit ≠ 0 ∧ limit ≤ (extracted.length : Int) then
      extracted
    else
      extractPages outputDir minSize limit (pageNum + 1) rest
        (extractPage outputDir minSize limit pageNum 0 page extracted)

/-- extract_images (lines 16-68): the document is the decoded page/image
structure; the Python return value is the path projection of this list. -/
def extract_images (doc : List (List Image)) (outputDir : String)
    (minSize : Int) (limit : Int) : List Saved :=
  extractPages outputDir minSize limit 0 doc []

/-- os.path.basename: the suffix of the path after the last slash. -/
def basename (path : String) : String :=
  String.mk ((path.data.reverse.takeWhile (fun c => c != '/')).reverse)

/-- Membership test of line 99: filename in existing_names, where
existing_names is the set of names from the single list_folder call. -/
def inListing (existingNames : List String) (path : String) : Bool :=
  decide (basename path ∈ existingNames)

/-- Loop of upload_to_drive (lines 93-106): returns the uploaded paths in
order and the skipped paths in order; the Python return value is the
length of the first component. -/
def uploadLoop (existingNames : List String) (limit : Int)
    (paths : List String) (uploaded skipped : List String) : List String × List String :=
  match paths with
  | [] => (uploaded, skipped)
  | path :: rest =>
    if limit ≠ 0 ∧ limit ≤ (uploaded.length : Int) then
      (uploaded, skipped)
    else if inListing existingNames path then
      uploadLoop existingNames limit rest uploaded (skipped ++ [path])
    else
      uploadLoop existingNames limit rest (uploaded ++ [path]) skipped

/-- upload_to_drive (lines 71-108) with the remote listing snapshot
(fetched once, line 90-91) passed in as existingNames. -/
def upload_to_drive (imagePaths : List String) (existingNames : List String)
    (limit : Int) : List String × List String :=
  uploadLoop existingNames limit imagePaths [] []

/-- Parsed argument record produced by a successful argparse run
(lines 112-143), defaults applied. -/
structure Args where
  pdf : String
  outputDir : String
  minSize : Int
  limit : Int
  driveFolderId : Option String
  uploadOnly : Bool
deriving DecidableEq

/-- Raw command line: which options were given. The positional pdf is
none when absent from the command line. -/
structure CmdLine where
  pdf : Option String
  outputDir : Option String
  minSize : Option Int
  limit : Option Int
  driveFolderId : Option String
  uploadOnly : Bool
deriving DecidableEq

/-- argparse behavior for the parser of lines 112-143: pdf is declared as
a required positional (line 115, no nargs), so parsing fails with exit
code 2 whenever it is missing, whatever the flags; defaults fill the rest. -/
def parseArgs (c : CmdLine) : Except Nat Args :=
  match c.pdf with
  | none => Except.error 2
  | some p =>
    Except.ok
      { pdf := p
        outputDir := c.outputDir.getD "./extracted_images"
        minSize := c.minSize.getD 100
        limit := c.limit.getD 0
        driveFolderId := c.driveFolderId
        uploadOnly := c.uploadOnly }

/-- State of the world the program runs against: whether the pdf path
exists, its decoded content, whether the output directory exists, the
sorted png listing of that directory, and the remote folder listing. -/
structure Env where
  pdfExists : Bool
  doc : List (List Image)
  outputDirExists : Bool
  outputDirPngs : List String
  remoteNames : List String
deriving DecidableEq

/-- Observable outcome of a run: exit code, files written by extraction,
paths uploaded. -/
structure RunResult where
  exitCode : Nat
  savedImages : List Saved
  uploadedPaths : List String
deriving DecidableEq

/-- Lines 172-177: if a folder id was supplied, upload with the given
cap; upload_limit is args.limit in upload-only mode and 0 otherwise. -/
def finishUpload (env : Env) (args : Args) (savedImages : List Saved)
    (imagePaths : List String) (uploadLimit : Int) : RunResult :=
  match args.driveFolderId with
  | some _ =>
    { exitCode := 0
      savedImages := savedImages
      uploadedPaths := (upload_to_drive imagePaths env.remoteNames uploadLimit).1 }
  | none =>
    { exitCode := 0, savedImages := savedImages, uploadedPaths := [] }

/-- Body of main after parsing (lines 145-177). -/
def runMain (env : Env) (args : Args) : RunResult :=
  if args.uploadOnly then
    if args.driveFolderId.isNone then
      { exitCode := 1, savedImages := [], uploadedPaths := [] }
    else if env.outputDirExists = false then
      { exitCode := 1, savedImages := [], uploadedPaths := [] }
    else
      finishUpload env args [] env.outputDirPngs args.limit
  else
    if env.pdfExists = false then
      { exitCode := 1, savedImages := [], uploadedPaths := [] }
    else
      let saved := extract_images env.doc args.outputDir args.minSize args.limit
      finishUpload env args saved (saved.map Saved.path) 0

/-- Whole program: argparse then main body; a parse failure exits with
the argparse code and touches nothing. -/
def runProgram (env : Env) (c : CmdLine) : RunResult :=
  match parseArgs c with
  | Except.error code => { exitCode := code, savedImages := [], uploadedPaths := [] }
  | Except.ok args => runMain env args

/-! Helper lemmas about the extraction loops. -/

@[simp]
theorem toRGB_width (img : Image) : (toRGB img).width = img.width := by
  unfold toRGB; split <;> rfl

@[simp]
theorem toRGB_height (img : Image) : (toRGB img).height = img.height := by
  unfold toRGB; split <;> rfl

theorem extractPage_min (out : String) (m L : Int) (pn : Nat) :
    ∀ (imgs : List Image) (i : Nat) (acc : List Saved),
      (∀ s ∈ acc, m ≤ (s.img.width : Int) ∧ m ≤ (s.img.height : Int)) →
      ∀ s ∈ extractPage out m L pn i imgs acc,
        m ≤ (s.img.width : Int) ∧ m ≤ (s.img.height : Int) := by
  intro imgs
  induction imgs with
  | nil =>
    intro i acc hacc s hs
    exact hacc s hs
  | cons img rest ih =>
    intro i acc hacc s hs
    by_cases hcap : L ≠ 0 ∧ L ≤ (acc.length : Int)
    · rw [extractPage, if_pos hcap] at hs
      exact hacc s hs
    · by_cases hsz : (img.width : Int) < m ∨ (img.height : Int) < m
      · rw [extractPage, if_neg hcap, if_pos hsz] at hs
        exact ih (i + 1) acc hacc s hs
      · rw [extractPage, if_neg hcap, if_neg hsz] at hs
        refine ih (i + 1) _ ?_ s hs
        intro t ht
        rcases List.mem_append.mp ht with h | h
        · exact hacc t h
        · have heq : t = ⟨imgName out pn i, toRGB img⟩ := by simpa using h
          subst heq
          push_neg at hsz
          simpa using hsz

theorem extractPages_min (out : String) (m L : Int) :
    ∀ (pages : List (List Image)) (pn : Nat) (acc : List Saved),
      (∀ s ∈ acc, m ≤ (s.img.width : Int) ∧ m ≤ (s.img.height : Int)) →
      ∀ s ∈ extractPages out m L pn pages acc,
        m ≤ (s.img.width : Int) ∧ m ≤ (s.img.height : Int) := by
  intro pages
  induction pages with
  | nil =>
    intro pn acc hacc s hs
    exact hacc s hs
  | cons page rest ih =>
    intro pn acc hacc s hs
    by_cases hcap : L ≠ 0 ∧ L ≤ (acc.length : Int)
    · rw [extractPages, if_pos hcap] at hs
      exact hacc s hs
    · rw [extractPages, if_neg hcap] at hs
      exact ih (pn + 1) _ (extractPage_min out m L pn page 0 acc hacc) s hs

/-- Claim C1: for every run of extract_images with any minimum size m, no
image with width below m or height below m is ever saved or included in
the returned list: every saved entry has both dimensions at least m. -/
theorem extract_images_min_size (doc : List (List Image)) (out : String) (m L : Int) :
    ∀ s ∈ extract_images doc out m L,
      m ≤ (s.img.width : Int) ∧ m ≤ (s.img.height : Int) := by
  intro s hs
  exact extractPages_min out m L doc 0 [] (by simp) s hs

/-- Witness for C1 at a concrete run with the default threshold 100. -/
theorem extract_images_min_size_witness :
    (100 : Int) ≤ (((⟨"out/page1_img1.png", ⟨200, 200, 3, 0⟩⟩ : Saved).img.width : Nat) : Int) ∧
    (100 : Int) ≤ (((⟨"out/page1_img1.png", ⟨200, 200, 3, 0⟩⟩ : Saved).img.height : Nat) : Int) :=
  extract_images_min_size [[⟨200, 200, 3, 0⟩, ⟨50, 400, 3, 0⟩]] "out" 100 0
    ⟨"out/page1_img1.png", ⟨200, 200, 3, 0⟩⟩ (by decide)

theorem extractPage_stop (out : String) (m L : Int) (pn i : Nat)
    (imgs : List Image) (acc : List Saved)
    (h0 : L ≠ 0) (h : L ≤ (acc.length : Int)) :
    extractPage out m L pn i imgs acc = acc := by
  cases imgs with
  | nil => rfl
  | cons img rest => rw [extractPage, if_pos ⟨h0, h⟩]

theorem extractPages_stop (out : String) (m L : Int) (pn : Nat)
    (pages : List (List Image)) (acc : List Saved)
    (h0 : L ≠ 0) (h : L ≤ (acc.length : Int)) :
    extractPages out m L pn pages acc = acc := by
  cases pages with
  | nil => rfl
  | cons page rest => rw [extractPages, if_pos ⟨h0, h⟩]

theorem extractPage_len (out : String) (m L : Int) (hL : 0 < L) (pn : Nat) :
    ∀ (imgs : List Image) (i : Nat) (acc : List Saved),
      (acc.length : Int) ≤ L →
      ((extractPage out m L pn i imgs acc).length : Int) ≤ L := by
  intro imgs
  induction imgs with
  | nil =>
    intro i acc h
    exact h
  | cons img rest ih =>
    intro i acc h
    by_cases hcap : L ≠ 0 ∧ L ≤ (acc.length : Int)
    · rw [extractPage, if_pos hcap]
      exact h
    · by_cases hsz : (img.width : Int) < m ∨ (img.height : Int) < m
      · rw [extractPage, if_neg hcap, if_pos hsz]
        exact ih (i + 1) acc h
      · rw [extractPage, if_neg hcap, if_neg hsz]
        apply ih
        have hlt : ¬ L ≤ (acc.length : Int) := fun hle => hcap ⟨by omega, hle⟩
        simp only [List.length_append, List.length_cons, List.length_nil]
        push_cast
        omega

theorem extractPages_len (out : String) (m L : Int) (hL : 0 < L) :
    ∀ (pages : List (List Image)) (pn : Nat) (acc : List Saved),
      (acc.length : Int) ≤ L →
      ((extractPages out m L pn pages acc).length : Int) ≤ L := by
  intro pages
  induction pages with
  | nil =>
    intro pn acc h
    exact h
  | cons page rest ih =>
    intro pn acc h
    by_cases hcap : L ≠ 0 ∧ L ≤ (acc.length : Int)
    · rw [extractPages, if_pos hcap]
      exact h
    · rw [extractPages, if_neg hcap]
      exact ih (pn + 1) _ (extractPage_len out m L hL pn page 0 acc h)

/-- Claim C2: with a positive limit L the number of saved files never
exceeds L, and the traversal stops entirely once the running count
reaches L, the stop condition holding both at page entry (extractPages
returns its accumulator unchanged) and before each image (extractPage
returns its accumulator unchanged). -/
theorem extract_images_limit_bound (doc : List (List Image)) (out : String)
    (m L : Int) (hL : 0 < L) :
    ((extract_images doc out m L).length : Int) ≤ L ∧
    (∀ (pn i : Nat) (imgs : List Image) (acc : List Saved),
      L ≤ (acc.length : Int) → extractPage out m L pn i imgs acc = acc) ∧
    (∀ (pn : Nat) (pages : List (List Image)) (acc : List Saved),
      L ≤ (acc.length : Int) → extractPages out m L pn pages acc = acc) := by
  refine ⟨extractPages_len out m L hL doc 0 [] (by simp; omega), ?_, ?_⟩
  · intro pn i imgs acc h
    exact extractPage_stop out m L pn i imgs acc (by omega) h
  · intro pn pages acc h
    exact extractPages_stop out m L pn pages acc (by omega) h

/-- Witness for C2: a two-page document with limit 1 saves at most one file. -/
theorem extract_images_limit_bound_witness :
    ((extract_images [[⟨200, 200, 3, 0⟩, ⟨300, 300, 3, 0⟩], [⟨400, 400, 3, 0⟩]]
        "out" 100 1).length : Int) ≤ 1 :=
  (extract_images_limit_bound [[⟨200, 200, 3, 0⟩, ⟨300, 300, 3, 0⟩], [⟨400, 400, 3, 0⟩]]
    "out" 100 1 (by decide)).1

/-! Helper lemmas about the upload loop. -/

theorem uploadLoop_spec (E : List String) (L : Int) :
    ∀ (rest uploaded skipped : List String),
      ∃ n, n ≤ rest.length ∧
        uploadLoop E L rest uploaded skipped =
          (uploaded ++ (rest.take n).filter (fun p => !(inListing E p)),
           skipped ++ (rest.take n).filter (fun p => inListing E p)) ∧
        (L = 0 → n = rest.length) := by
  intro rest
  induction rest with
  | nil =>
    intro uploaded skipped
    exact ⟨0, by simp [uploadLoop]⟩
  | cons p rest ih =>
    intro uploaded skipped
    by_cases hcap : L ≠ 0 ∧ L ≤ (uploaded.length : Int)
    · refine ⟨0, by simp, ?_, ?_⟩
      · rw [uploadLoop, if_pos hcap]
        simp
      · intro h0
        exact absurd h0 hcap.1
    · by_cases hex : inListing E p = true
      · obtain ⟨n, hn, heq, hfull⟩ := ih uploaded (skipped ++ [p])
        refine ⟨n + 1, by simpa using Nat.succ_le_succ hn, ?_, ?_⟩
        · rw [uploadLoop, if_neg hcap, if_pos hex, heq]
          simp [List.take_succ_cons, List.filter_cons, hex]
        · intro h0
          simp [hfull h0]
      · obtain ⟨n, hn, heq, hfull⟩ := ih (uploaded ++ [p]) skipped
        refine ⟨n + 1, by simpa using Nat.succ_le_succ hn, ?_, ?_⟩
        · rw [uploadLoop, if_neg hcap, if_neg hex, heq]
          simp only [Bool.not_eq_true] at hex
          simp [List.take_succ_cons, List.filter_cons, hex]
        · intro h0
          simp [hfull h0]

theorem upload_to_drive_zero (paths E : List String) :
    upload_to_drive paths E 0 =
      (paths.filter (fun p => !(inListing E p)),
       paths.filter (fun p => inListing E p)) := by
  obtain ⟨n, hn, heq, hfull⟩ := uploadLoop_spec E 0 paths [] []
  rw [upload_to_drive, heq, hfull rfl]
  simp

/-- Claim C3: in every run of upload_to_drive the loop processes a prefix
of the path list; within that prefix a path is skipped exactly when its
basename is in the pre-fetched listing, and a path is uploaded exactly
when its basename is absent from it; without a cap the whole list is
processed. -/
theorem upload_skip_iff_existing (paths E : List String) (L : Int) :
    ∃ n, n ≤ paths.length ∧
      (upload_to_drive paths E L).1 = (paths.take n).filter (fun p => !(inListing E p)) ∧
      (upload_to_drive paths E L).2 = (paths.take n).filter (fun p => inListing E p) ∧
      (L = 0 → n = paths.length) := by
  obtain ⟨n, hn, heq, hfull⟩ := uploadLoop_spec E L paths [] []
  refine ⟨n, hn, ?_, ?_, hfull⟩
  · rw [upload_to_drive, heq]
    simp
  · rw [upload_to_drive, heq]
    simp

/-- Witness for C3 at a concrete run: one basename present remotely, one
absent, no cap. -/
theorem upload_skip_iff_existing_witness :
    (upload_to_drive ["out/a.png", "out/b.png"] ["a.png"] 0).1 = ["out/b.png"] ∧
    (upload_to_drive ["out/a.png", "out/b.png"] ["a.png"] 0).2 = ["out/a.png"] := by
  obtain ⟨n, hn, h1, h2, hfull⟩ :=
    upload_skip_iff_existing ["out/a.png", "out/b.png"] ["a.png"] 0
  rw [hfull rfl] at h1 h2
  refine ⟨h1.trans (by decide), h2.trans (by decide)⟩

/-- Claim C9: the existing-name set is the pre-fetched snapshot and is
never extended during the run, so with no cap the uploaded list is
exactly the filter of the whole input by absence from that one snapshot;
in particular two paths sharing a basename absent from the snapshot are
both uploaded, with no within-run duplicate suppression, and each
uploaded occurrence counts. -/
theorem upload_snapshot_no_dedup (paths E : List String) :
    (upload_to_drive paths E 0).1 = paths.filter (fun p => !(inListing E p)) ∧
    ((upload_to_drive paths E 0).1).length = paths.countP (fun p => !(inListing E p)) ∧
    (∀ p q, p ∈ paths → q ∈ paths → basename p = basename q →
      inListing E p = false →
      p ∈ (upload_to_drive paths E 0).1 ∧ q ∈ (upload_to_drive paths E 0).1) := by
  have hz : (upload_to_drive paths E 0).1 = paths.filter (fun p => !(inListing E p)) := by
    rw [upload_to_drive_zero]
  refine ⟨hz, ?_, ?_⟩
  · rw [hz, ← List.countP_eq_length_filter]
  · intro p q hp hq hbase habs
    have habsq : inListing E q = false := by
      unfold inListing at habs ⊢
      rw [← hbase]
      exact habs
    rw [hz]
    constructor
    · exact List.mem_filter.mpr ⟨hp, by simp [habs]⟩
    · exact List.mem_filter.mpr ⟨hq, by simp [habsq]⟩

/-- Witness for C9: two distinct paths with the same basename, both
uploaded in one run. -/
theorem upload_snapshot_no_dedup_witness :
    "d/a.png" ∈ (upload_to_drive ["d/a.png", "e/a.png"] [] 0).1 ∧
    "e/a.png" ∈ (upload_to_drive ["d/a.png", "e/a.png"] [] 0).1 :=
  (upload_snapshot_no_dedup ["d/a.png", "e/a.png"] []).2.2 "d/a.png" "e/a.png"
    (by decide) (by decide) (by decide) (by decide)

theorem uploadLoop_fst_nil (E : List String) (L : Int) :
    ∀ (rest skipped : List String),
      (∀ p ∈ rest, inListing E p = true) →
      (uploadLoop E L rest [] skipped).1 = [] := by
  intro rest
  induction rest with
  | nil =>
    intro skipped h
    rfl
  | cons p rest ih =>
    intro skipped h
    by_cases hcap : L ≠ 0 ∧ L ≤ ((List.length ([] : List String)) : Int)
    · rw [uploadLoop, if_pos hcap]
    · rw [uploadLoop, if_neg hcap, if_pos (h p (by simp))]
      exact ih (skipped ++ [p]) (fun q hq => h q (by simp [hq]))

/-- Counterexample to claim C4 as stated: with a cap of 1, the first run
uploads only out/a.png; re-running against a folder now listing every
previously uploaded basename still uploads out/b.png, so the re-run does
not upload zero files. -/
theorem upload_rerun_counterexample :
    (upload_to_drive ["out/a.png", "out/b.png"] [] 1).1 = ["out/a.png"] ∧
    (upload_to_drive ["out/a.png", "out/b.png"]
      ([] ++ ((upload_to_drive ["out/a.png", "out/b.png"] [] 1).1.map basename))
      1).1 = ["out/b.png"] := by
  constructor <;> decide

/-- Claim C4 amended: when the first run is uncapped (limit 0), re-running
upload_to_drive with the same path list against the folder extended by
every basename uploaded in the first run uploads zero files, whatever the
cap of the second run; every previously uploaded basename is re-skipped. -/
theorem upload_rerun_uncapped_idempotent (paths E : List String) (L2 : Int) :
    (upload_to_drive paths
      (E ++ ((upload_to_drive paths E 0).1.map basename)) L2).1 = [] := by
  rw [upload_to_drive_zero]
  rw [upload_to_drive]
  apply uploadLoop_fst_nil
  intro p hp
  unfold inListing
  rw [decide_eq_true_eq, List.mem_append]
  by_cases hE : basename p ∈ E
  · exact Or.inl hE
  · refine Or.inr (List.mem_map.mpr ⟨p, ?_, rfl⟩)
    refine List.mem_filter.mpr ⟨hp, ?_⟩
    simp [inListing, hE]

/-- Claim C10: a negative limit acts as a cap of zero: extract_images
saves nothing and returns the empty list, and upload_to_drive uploads
nothing, because the break condition is truthy and 0 already meets the
cap. -/
theorem negative_limit_zero_cap (doc : List (List Image)) (out : String)
    (m : Int) (paths E : List String) (L : Int) (hL : L < 0) :
    extract_images doc out m L = [] ∧ (upload_to_drive paths E L).1 = [] := by
  constructor
  · cases doc with
    | nil => rfl
    | cons page rest =>
      rw [extract_images, extractPages, if_pos]
      exact ⟨by omega, by simp; omega⟩
  · cases paths with
    | nil => rfl
    | cons p rest =>
      rw [upload_to_drive, uploadLoop, if_pos]
      exact ⟨by omega, by simp; omega⟩

/-- Witness for C10 at limit -1 with nonempty inputs. -/
theorem negative_limit_zero_cap_witness :
    extract_images [[⟨200, 200, 3, 0⟩]] "out" 100 (-1) = [] ∧
    (upload_to_drive ["out/a.png"] [] (-1)).1 = [] :=
  negative_limit_zero_cap [[⟨200, 200, 3, 0⟩]] "out" 100 ["out/a.png"] [] (-1) (by decide)

/-- Claim C5: a 3-page document whose pages hold 2, 0 and 5 qualifying
images, run with limit 4, stops after the 4th qualifying image, having
visited pages 1 through 3, and produces exactly the 4 files named by
1-based page and per-page image index. -/
theorem extract_three_page_limit_four :
    (extract_images
      [[⟨200, 200, 3, 0⟩, ⟨210, 210, 3, 0⟩],
       [],
       [⟨220, 220, 3, 0⟩, ⟨230, 230, 3, 0⟩, ⟨240, 240, 3, 0⟩,
        ⟨250, 250, 3, 0⟩, ⟨260, 260, 3, 0⟩]]
      "out" 100 4).map Saved.path =
      ["out/page1_img1.png", "out/page1_img2.png",
       "out/page3_img1.png", "out/page3_img2.png"] := by
  decide

/-- Claim C6: in default mode with a folder id supplied and the pdf
present, the upload phase runs with cap 0 (no cap) whatever args.limit
is: the whole extracted list is processed, and the uploaded paths are
exactly the extracted paths whose basenames are absent from the remote
listing, while args.limit governs only the extraction. -/
theorem default_mode_upload_uncapped (env : Env) (args : Args) (fid : String)
    (hmode : args.uploadOnly = false)
    (hfid : args.driveFolderId = some fid)
    (hpdf : env.pdfExists = true) :
    runMain env args =
      { exitCode := 0
        savedImages := extract_images env.doc args.outputDir args.minSize args.limit
        uploadedPaths :=
          ((extract_images env.doc args.outputDir args.minSize args.limit).map
            Saved.path).filter (fun p => !(inListing env.remoteNames p)) } := by
  rw [runMain]
  rw [hmode, hpdf]
  simp only [Bool.false_eq_true, if_false, if_neg (by simp : ¬ (true = false))]
  rw [finishUpload, hfid]
  rw [upload_to_drive_zero]

/-- Witness for C6: one extracted image, extraction limit 5, folder id
supplied, empty remote listing; the single extracted file is uploaded. -/
theorem default_mode_upload_uncapped_witness :
    runMain ⟨true, [[⟨200, 200, 3, 0⟩]], true, [], []⟩
        ⟨"a.pdf", "out", 100, 5, some "FID", false⟩ =
      { exitCode := 0
        savedImages := [⟨"out/page1_img1.png", ⟨200, 200, 3, 0⟩⟩]
        uploadedPaths := ["out/page1_img1.png"] } :=
  (default_mode_upload_uncapped ⟨true, [[⟨200, 200, 3, 0⟩]], true, [], []⟩
    ⟨"a.pdf", "out", 100, 5, some "FID", false⟩ "FID" rfl rfl rfl).trans (by decide)

/-- Counterexample to claim C7 as stated: a command line with
upload-only, a valid folder id and an existing output directory holding
one png, but no positional pdf, fails argument parsing with exit code 2
and uploads nothing, instead of running the upload phase. -/
theorem upload_only_requires_pdf_counterexample :
    parseArgs ⟨none, some "out", none, none, some "FID", true⟩ = Except.error 2 ∧
    runProgram ⟨false, [], true, ["out/page1_img1.png"], []⟩
        ⟨none, some "out", none, none, some "FID", true⟩ =
      { exitCode := 2, savedImages := [], uploadedPaths := [] } := by
  constructor <;> rfl

/-- Claim C7 amended: the positional pdf argument is required in every
mode, upload-only included; any command line without it fails argument
parsing with exit code 2, writing no files and uploading nothing. -/
theorem pdf_positional_always_required (env : Env) (c : CmdLine)
    (hpdf : c.pdf = none) :
    runProgram env c = { exitCode := 2, savedImages := [], uploadedPaths := [] } := by
  rw [runProgram, parseArgs, hpdf]

/-- Witness for amended C7 at a concrete upload-only command line. -/
theorem pdf_positional_always_required_witness :
    runProgram ⟨true, [[⟨200, 200, 3, 0⟩]], true, ["out/p.png"], []⟩
        ⟨none, none, none, some 2, some "FID", true⟩ =
      { exitCode := 2, savedImages := [], uploadedPaths := [] } :=
  pdf_positional_always_required ⟨true, [[⟨200, 200, 3, 0⟩]], true, ["out/p.png"], []⟩
    ⟨none, none, none, some 2, some "FID", true⟩ rfl

/-- Claim C8: a run with upload-only set and no folder id (the pdf
positional supplied, as parsing requires) exits with code 1, writes no
files and uploads nothing. -/
theorem upload_only_missing_folder_exits_one (env : Env) (c : CmdLine) (p : String)
    (huo : c.uploadOnly = true)
    (hfid : c.driveFolderId = none)
    (hpdf : c.pdf = some p) :
    runProgram env c = { exitCode := 1, savedImages := [], uploadedPaths := [] } := by
  rw [runProgram, parseArgs, hpdf]
  simp only [runMain, huo, hfid]
  rfl

/-- Witness for C8 at a concrete command line. -/
theorem upload_only_missing_folder_exits_one_witness :
    runProgram ⟨true, [[⟨200, 200, 3, 0⟩]], true, ["out/p.png"], []⟩
        ⟨some "a.pdf", some "out", some 100, some 3, none, true⟩ =
      { exitCode := 1, savedImages := [], uploadedPaths := [] } :=
  upload_only_missing_folder_exits_one ⟨true, [[⟨200, 200, 3, 0⟩]], true, ["out/p.png"], []⟩
    ⟨some "a.pdf", some "out", some 100, some 3, none, true⟩ "a.pdf" rfl rfl rfl
